import Mathlib

/-!
A shallow embedding of the game-state engine of `ncurses_tetris`
(`tetris.c` together with its header).  Machine integers are modelled as
`Int` (the C `int32_t` fields) and `Nat` (the C `uint8_t` board bytes and
piece indices); the board is a flat list of 200 bytes exactly as in the C
struct `TetrisGameState`.  Wall-clock doubles only feed branch conditions,
so they are modelled as rationals.  Randomness (`RandomNewPiece`) and file
contents are passed in as explicit arguments.
-/

/-- BLOCKS_WIDE from the header. -/
def BLOCKS_WIDE : Int := 10

/-- BLOCKS_TALL from the header. -/
def BLOCKS_TALL : Int := 20

/-- PIECE_START_Y from tetris.c. -/
def PIECE_START_Y : Int := -1

/-- The C struct `TetrisGameState`: a 200-byte board (`uint8_t`), piece
indices (`uint8_t`, modelled as `Nat`), and `int32_t` coordinates, score and
line count (modelled as `Int`). -/
structure TetrisGameState where
  board : List Nat
  next_piece : Nat
  piece_x : Int
  piece_y : Int
  current_piece : Nat
  score : Int
  lines : Int
  deriving DecidableEq, Repr

/-- The 19-entry piece catalog `tetris_pieces` from the header: each piece is
a 16-character mask stored bottom row first.  The terminating NULL entry of
the C array is not a mask and is not listed here; `tetris_pieces` in C has
20 slots, which matters for `SanityCheckState` (see `sanityCheckState`). -/
def tetris_pieces : List (List Char) := [
  ['=','=','=','=',  ' ',' ',' ',' ',  ' ',' ',' ',' ',  ' ',' ',' ',' '],
  ['=',' ',' ',' ',  '=',' ',' ',' ',  '=',' ',' ',' ',  '=',' ',' ',' '],
  ['H','H',' ',' ',  'H','H',' ',' ',  ' ',' ',' ',' ',  ' ',' ',' ',' '],
  ['N',' ',' ',' ',  'N','N',' ',' ',  ' ','N',' ',' ',  ' ',' ',' ',' '],
  [' ','N','N',' ',  'N','N',' ',' ',  ' ',' ',' ',' ',  ' ',' ',' ',' '],
  [' ','Z',' ',' ',  'Z','Z',' ',' ',  'Z',' ',' ',' ',  ' ',' ',' ',' '],
  ['Z','Z',' ',' ',  ' ','Z','Z',' ',  ' ',' ',' ',' ',  ' ',' ',' ',' '],
  [' ','#',' ',' ',  '#','#','#',' ',  ' ',' ',' ',' ',  ' ',' ',' ',' '],
  ['#',' ',' ',' ',  '#','#',' ',' ',  '#',' ',' ',' ',  ' ',' ',' ',' '],
  ['#','#','#',' ',  ' ','#',' ',' ',  ' ',' ',' ',' ',  ' ',' ',' ',' '],
  [' ','#',' ',' ',  '#','#',' ',' ',  ' ','#',' ',' ',  ' ',' ',' ',' '],
  ['@',' ',' ',' ',  '@',' ',' ',' ',  '@','@',' ',' ',  ' ',' ',' ',' '],
  ['@','@','@',' ',  '@',' ',' ',' ',  ' ',' ',' ',' ',  ' ',' ',' ',' '],
  ['@','@',' ',' ',  ' ','@',' ',' ',  ' ','@',' ',' ',  ' ',' ',' ',' '],
  [' ',' ','@',' ',  '@','@','@',' ',  ' ',' ',' ',' ',  ' ',' ',' ',' '],
  [' ','O',' ',' ',  ' ','O',' ',' ',  'O','O',' ',' ',  ' ',' ',' ',' '],
  ['O',' ',' ',' ',  'O','O','O',' ',  ' ',' ',' ',' ',  ' ',' ',' ',' '],
  ['O','O',' ',' ',  'O',' ',' ',' ',  'O',' ',' ',' ',  ' ',' ',' ',' '],
  ['O','O','O',' ',  ' ',' ','O',' ',  ' ',' ',' ',' ',  ' ',' ',' ',' ']]

/-- The rotation successor table `piece_rotations` from the header. -/
def piece_rotations : List Nat :=
  [1, 0, 2, 4, 3, 6, 5, 8, 9, 10, 7, 12, 13, 14, 11, 16, 17, 18, 15]

/-- Character `idx` of the mask of catalog entry `piece`
(`tetris_pieces[piece][idx]` in C). -/
def pieceCell (piece : Nat) (idx : Nat) : Char :=
  (tetris_pieces.getD piece []).getD idx ' '

/-- A board byte reinterpreted as a (signed) C `char`, as happens in
`SpaceAvailable` and `SanityCheckState`, which read the `uint8_t` board
through a `char` local. -/
def signedChar (b : Nat) : Int :=
  if b < 128 then (b : Int) else (b : Int) - 256

/-- `SpaceAvailable` from tetris.c: availability of board cell (x, y) for a
falling block.  Out of range horizontally or below the bottom is
unavailable, above the top is available, and an in-range cell is available
iff its byte, read as a `char`, satisfies `c <= ' ' || c >= '~'`. -/
def spaceAvailable (board : List Nat) (x y : Int) : Bool :=
  if x < 0 ∨ x ≥ BLOCKS_WIDE then false
  else if y < 0 then true
  else if y ≥ BLOCKS_TALL then false
  else
    let c := signedChar (board.getD (y.toNat * 10 + x.toNat) 0)
    decide (c ≤ 32) || decide (c ≥ 126)

/-- `SanityCheckState` from tetris.c.  Note `tmp` there is
`sizeof(tetris_pieces) / sizeof(const char*)`, which counts the terminating
NULL entry of the C array, so `tmp = 20`. -/
def sanityCheckState (s : TetrisGameState) : Bool :=
  if s.piece_x < 0 ∨ s.piece_x ≥ BLOCKS_WIDE then false
  else if s.piece_y < PIECE_START_Y ∨ s.piece_y ≥ BLOCKS_TALL then false
  else if s.current_piece ≥ 20 then false
  else if s.next_piece ≥ 20 then false
  else (List.range 20).all fun row =>
    (List.range 10).all fun col =>
      let c := signedChar (s.board.getD (row * 10 + col) 0)
      if c < 32 ∨ c > 126 then false else true

/-- `PieceFits` from tetris.c: piece `piece` fits at origin (new_x, new_y)
iff every non-space mask cell maps to an available board cell, where mask
row `py` maps to board row `new_y - py`. -/
def pieceFits (s : TetrisGameState) (piece : Nat) (new_x new_y : Int) : Bool :=
  (List.range 4).all fun py =>
    (List.range 4).all fun px =>
      if pieceCell piece (py * 4 + px) = ' ' then true
      else spaceAvailable s.board (new_x + px) (new_y - py)

/-- `TryMovingDown` from tetris.c: returns whether the piece moved, plus the
updated state. -/
def tryMovingDown (s : TetrisGameState) : Bool × TetrisGameState :=
  if ¬ pieceFits s s.current_piece s.piece_x (s.piece_y + 1) then (false, s)
  else (true, { s with piece_y := s.piece_y + 1 })

/-- `TryMovingLeft` from tetris.c. -/
def tryMovingLeft (s : TetrisGameState) : TetrisGameState :=
  if ¬ pieceFits s s.current_piece (s.piece_x - 1) s.piece_y then s
  else { s with piece_x := s.piece_x - 1 }

/-- `TryMovingRight` from tetris.c. -/
def tryMovingRight (s : TetrisGameState) : TetrisGameState :=
  if ¬ pieceFits s s.current_piece (s.piece_x + 1) s.piece_y then s
  else { s with piece_x := s.piece_x + 1 }

/-- `TryRotating` from tetris.c: first try the rotated piece in place, then
the first fitting offset of the loop `x_offset = 1, 2, 3`, then of the loop
`x_offset = -1, -2, -3`; if nothing fits the state is unchanged. -/
def tryRotating (s : TetrisGameState) : TetrisGameState :=
  let new_piece := piece_rotations.getD s.current_piece 0
  if pieceFits s new_piece s.piece_x s.piece_y then
    { s with current_piece := new_piece }
  else
    match ([1, 2, 3] : List Int).find? fun off =>
        pieceFits s new_piece (s.piece_x + off) s.piece_y with
    | some off => { s with current_piece := new_piece, piece_x := s.piece_x + off }
    | none =>
      match ([-1, -2, -3] : List Int).find? fun off =>
          pieceFits s new_piece (s.piece_x + off) s.piece_y with
      | some off => { s with current_piece := new_piece, piece_x := s.piece_x + off }
      | none => s

/-- `IsGameOver` from tetris.c: some non-space cell of the current piece
lies above the top of the board. -/
def isGameOver (s : TetrisGameState) : Bool :=
  (List.range 4).any fun py =>
    (List.range 4).any fun px =>
      !(pieceCell s.current_piece (py * 4 + px) = ' ') && decide (s.piece_y - py < 0)

/-- A single board store `board[i] = v` at flat (possibly negative) index
`i`.  In C a store outside the 200-byte array is undefined behaviour; the
model makes such stores no-ops, and the safety theorems show they do not
occur in the situations the spec describes. -/
def boardSetFlat (board : List Nat) (i : Int) (v : Nat) : List Nat :=
  if 0 ≤ i ∧ i < 200 then board.set i.toNat v else board

/-- The stores performed by the nested loops of `FinishFallingPiece`: one
`(board_y, board_x, marker)` triple per non-space mask cell, in loop
order. -/
def lockCells (s : TetrisGameState) : List (Int × Int × Nat) :=
  (List.range 4).flatMap fun py =>
    (List.range 4).filterMap fun px =>
      let c := pieceCell s.current_piece (py * 4 + px)
      if c = ' ' then none
      else some (s.piece_y - py, s.piece_x + px, c.toNat)

/-- `FinishFallingPiece` from tetris.c: write the piece's markers into the
board, promote `next_piece`, and respawn at the top centre.  The value
`RandomNewPiece()` would produce is passed in as `newPiece`. -/
def finishFallingPiece (s : TetrisGameState) (newPiece : Nat) : TetrisGameState :=
  { s with
    board := (lockCells s).foldl
      (fun b c => boardSetFlat b (c.1 * 10 + c.2.1) c.2.2) s.board,
    current_piece := s.next_piece,
    next_piece := newPiece,
    piece_x := 5,
    piece_y := PIECE_START_Y }

/-- `RemoveRowAndShift` from tetris.c: rows `1 … row` each receive the row
above them (reads precede any write of the source row, so all reads see the
original board), and row 0 is cleared to spaces.  Stated per flat index:
cell `i` of the result is a space if `i` is in row 0, the cell ten places
earlier if `i`'s row is `≤ row`, and unchanged otherwise. -/
def removeRowAndShift (board : List Nat) (row : Int) : List Nat :=
  (List.range 200).map fun i : Nat =>
    if i / 10 = 0 then 32
    else if ((i / 10 : Nat) : Int) ≤ row then board.getD (i - 10) 0
    else board.getD i 0

/-- The `row_ok` computation of `CheckForCompleteLines`: a row is complete
iff no cell of it is available. -/
def isRowComplete (board : List Nat) (y : Int) : Bool :=
  (List.range 10).all fun x => !(spaceAvailable board x y)

/-- The completed rows found by the scan loop of `CheckForCompleteLines`,
in ascending order: the rows among `fallen_piece_y - 3 … fallen_piece_y`
that are complete. -/
def completedRows (board : List Nat) (fallen_piece_y : Int) : List Int :=
  ((List.range 4).map fun i : Nat => fallen_piece_y - 3 + (i : Int)).filter
    fun y => isRowComplete board y

/-- The `switch (completed_row_count)` scoring table of
`CheckForCompleteLines` (default case: 0). -/
def lineBonus (n : Nat) : Int :=
  match n with
  | 1 => 100
  | 2 => 400
  | 3 => 1600
  | 4 => 6400
  | _ => 0

/-- `CheckForCompleteLines` from tetris.c: find the complete rows among the
four rows ending at `fallen_piece_y`; if none, return unchanged, otherwise
remove each (in scan order), and bump `lines` and `score`. -/
def checkForCompleteLines (s : TetrisGameState) (fallen_piece_y : Int) :
    TetrisGameState :=
  let completed := completedRows s.board fallen_piece_y
  if completed.length = 0 then s
  else
    { s with
      board := completed.foldl removeRowAndShift s.board,
      lines := s.lines + completed.length,
      score := s.score + lineBonus completed.length }

/-- `TryQuickload` from tetris.c, with the outcome of reading
`tetris_quicksave.bin` passed in: `none` models an open or read failure.
Returns the C return value together with the (possibly replaced) live
state. -/
def tryQuickload (s : TetrisGameState) (fileContents : Option TetrisGameState) :
    Bool × TetrisGameState :=
  match fileContents with
  | none => (false, s)
  | some tmp => if ¬ sanityCheckState tmp then (false, s) else (true, tmp)

/-- The keys `UpdateGameState` distinguishes: the arrow keys, or anything
else (including no key). -/
inductive InputKey where
  | left
  | right
  | up
  | down
  | other
  deriving DecidableEq, Repr

/-- The `switch (input_key)` block of `UpdateGameState`: arrow-key
movement or rotation; any other key (or none) does nothing here. -/
def lateralStep (s : TetrisGameState) (input_key : InputKey) : TetrisGameState :=
  match input_key with
  | InputKey.left => tryMovingLeft s
  | InputKey.right => tryMovingRight s
  | InputKey.up => tryRotating s
  | _ => s

/-- The `down_movement_threshold` computation of `UpdateGameState`:
`0.7 - (lines / 10) * 0.001` (C integer division), floored at 0. -/
def downThreshold (lines : Int) : Rat :=
  let t : Rat := 7/10 - ((Int.tdiv lines 10 : Int) : Rat) * (1/1000)
  if t < 0 then 0 else t

/-- The downward-movement block of `UpdateGameState`, entered after
`score++`: try to move down; when blocked, either report game over or lock
the piece (`FinishFallingPiece`) and clear lines at the pre-lock
`piece_y`.  Returns the continue-flag and the resulting state. -/
def landPhase (s : TetrisGameState) (newPiece : Nat) :
    Bool × TetrisGameState :=
  let r := tryMovingDown s
  if r.1 then (true, r.2)
  else if isGameOver r.2 then (false, r.2)
  else
    (true, checkForCompleteLines (finishFallingPiece r.2 newPiece)
      r.2.piece_y)

/-- `UpdateGameState` from tetris.c.  `delta` and the down-movement timer
are wall-clock doubles in C, modelled as rationals; the value
`RandomNewPiece()` would produce inside `FinishFallingPiece` is passed as
`newPiece`.  Returns (continue-flag, new state, new timer): the flag is
false exactly on game over. -/
def updateGameState (s : TetrisGameState) (delta : Rat) (input_key : InputKey)
    (newPiece : Nat) (down_movement_timer : Rat) :
    Bool × TetrisGameState × Rat :=
  let s1 := lateralStep s input_key
  let timer := down_movement_timer + delta
  if input_key = InputKey.down ∨ timer > downThreshold s.lines then
    let r := landPhase { s1 with score := s1.score + 1 } newPiece
    (r.1, r.2, 0)
  else (true, s1, timer)

/-! ### Concrete states used by witnesses and counterexamples -/

/-- An all-spaces board, as `InitializeNewGame` produces. -/
def emptyBoard : List Nat := List.replicate 200 32

/-- A freshly started game whose random draws were piece 0 twice, with the
falling piece already at row 0 and column 3. -/
def demoState : TetrisGameState :=
  { board := emptyBoard, next_piece := 0, piece_x := 3, piece_y := 0,
    current_piece := 0, score := 0, lines := 0 }

/-- An otherwise fully valid state whose `current_piece` is 19: the index of
the terminating NULL slot of `tetris_pieces`, not a valid piece. -/
def nullPieceState : TetrisGameState :=
  { board := emptyBoard, next_piece := 0, piece_x := 5, piece_y := 0,
    current_piece := 19, score := 0, lines := 0 }

/-- A board whose cell (0, 0) holds a tilde (byte 126), a printable
non-space character; all other cells are spaces. -/
def tildeBoard : List Nat := 126 :: List.replicate 199 32

/-- An otherwise valid candidate whose `piece_x` is -1 (spec scenario 3). -/
def negativeXCandidate : TetrisGameState :=
  { board := emptyBoard, next_piece := 0, piece_x := -1, piece_y := 0,
    current_piece := 0, score := 0, lines := 0 }

/-- `piece_rotations[i]` as a function, as used by `TryRotating`. -/
def nextRotation (i : Nat) : Nat := piece_rotations.getD i 0

/-- A board whose bottom row (row 19) is fully occupied by markers. -/
def row19FullState : TetrisGameState :=
  { board := List.replicate 190 32 ++ List.replicate 10 61, next_piece := 0,
    piece_x := 5, piece_y := -1, current_piece := 0, score := 0, lines := 0 }


/-! ### Helper lemmas -/

theorem if_space_eq_true_iff (c : Char) (b : Bool) :
    ((if c = ' ' then true else b) = true) ↔ (¬(c = ' ') → b = true) := by
  by_cases h : c = ' ' <;> simp [h]

/-- Characterization of `spaceAvailable` as a predicate on coordinates and
the stored byte. -/
theorem spaceAvailable_eq_true_iff (board : List Nat) (x y : Int) :
    spaceAvailable board x y = true ↔
      (0 ≤ x ∧ x < 10 ∧
        (y < 0 ∨ (y < 20 ∧
          (signedChar (board.getD (y.toNat * 10 + x.toNat) 0) ≤ 32 ∨
            126 ≤ signedChar (board.getD (y.toNat * 10 + x.toNat) 0))))) := by
  unfold spaceAvailable BLOCKS_WIDE BLOCKS_TALL
  split_ifs with h1 h2 h3 <;> (simp_all; try omega)

theorem pieceFits_eq_true_iff (s : TetrisGameState) (piece : Nat)
    (new_x new_y : Int) :
    pieceFits s piece new_x new_y = true ↔
      ∀ py < 4, ∀ px < 4, ¬(pieceCell piece (py * 4 + px) = ' ') →
        spaceAvailable s.board (new_x + px) (new_y - py) = true := by
  simp only [pieceFits, List.all_eq_true, List.mem_range, if_space_eq_true_iff]

theorem isGameOver_eq_false_iff (s : TetrisGameState) :
    isGameOver s = false ↔
      ∀ py < 4, ∀ px < 4, ¬(pieceCell s.current_piece (py * 4 + px) = ' ') →
        0 ≤ s.piece_y - py := by
  rw [← Bool.not_eq_true, isGameOver]
  simp only [List.any_eq_true, List.mem_range, Bool.and_eq_true,
    Bool.not_eq_true', decide_eq_true_eq, decide_eq_false_iff_not, not_exists, not_and]
  constructor
  · intro h py hpy px hpx hc
    have := h py hpy px hpx hc
    omega
  · intro h py hpy px hpx hc
    have := h py hpy px hpx hc
    omega

theorem isRowComplete_eq_true_iff (board : List Nat) (y : Int) :
    isRowComplete board y = true ↔
      ∀ x : Nat, x < 10 → spaceAvailable board x y = false := by
  simp [isRowComplete, List.all_eq_true]

/-- A row above the board is never complete: its cells count as available. -/
theorem isRowComplete_of_neg (board : List Nat) (y : Int) (hy : y < 0) :
    isRowComplete board y = false := by
  rw [← Bool.not_eq_true, isRowComplete_eq_true_iff]
  intro h
  have h0 := h 0 (by norm_num)
  rw [spaceAvailable] at h0
  simp only [BLOCKS_WIDE] at h0
  norm_num at h0
  omega

theorem completedRows_mem (board : List Nat) (fy y : Int) :
    y ∈ completedRows board fy ↔
      ((∃ i : Nat, i < 4 ∧ y = fy - 3 + i) ∧ isRowComplete board y = true) := by
  simp only [completedRows, List.mem_filter, List.mem_map, List.mem_range]
  constructor
  · rintro ⟨⟨i, hi, rfl⟩, hc⟩
    exact ⟨⟨i, hi, rfl⟩, hc⟩
  · rintro ⟨⟨i, hi, rfl⟩, hc⟩
    exact ⟨⟨i, hi, rfl⟩, hc⟩

theorem completedRows_length_le (board : List Nat) (fy : Int) :
    (completedRows board fy).length ≤ 4 := by
  have h := List.length_filter_le
    (fun y => isRowComplete board y)
    ((List.range 4).map fun i => fy - 3 + i)
  simpa [completedRows] using h

theorem lineBonus_nonneg (n : Nat) : 0 ≤ lineBonus n := by
  rcases n with _ | _ | _ | _ | _ | n <;> simp [lineBonus]

theorem checkForCompleteLines_lines (s : TetrisGameState) (fy : Int) :
    (checkForCompleteLines s fy).lines =
      s.lines + (completedRows s.board fy).length := by
  rw [checkForCompleteLines]
  split
  · simp_all
  · rfl

theorem checkForCompleteLines_score (s : TetrisGameState) (fy : Int) :
    (checkForCompleteLines s fy).score =
      s.score + lineBonus (completedRows s.board fy).length := by
  rw [checkForCompleteLines]
  split
  · simp_all [lineBonus]
  · rfl

theorem checkForCompleteLines_board (s : TetrisGameState) (fy : Int) :
    (checkForCompleteLines s fy).board =
      (completedRows s.board fy).foldl removeRowAndShift s.board := by
  rw [checkForCompleteLines]
  split
  · have : completedRows s.board fy = [] := by
      rwa [← List.length_eq_zero]
    simp [this]
  · rfl

theorem tryMovingLeft_score (s : TetrisGameState) :
    (tryMovingLeft s).score = s.score := by
  rw [tryMovingLeft]
  split <;> simp

theorem tryMovingLeft_lines (s : TetrisGameState) :
    (tryMovingLeft s).lines = s.lines := by
  rw [tryMovingLeft]
  split <;> simp

theorem tryMovingRight_score (s : TetrisGameState) :
    (tryMovingRight s).score = s.score := by
  rw [tryMovingRight]
  split <;> simp

theorem tryMovingRight_lines (s : TetrisGameState) :
    (tryMovingRight s).lines = s.lines := by
  rw [tryMovingRight]
  split <;> simp

theorem tryRotating_score (s : TetrisGameState) :
    (tryRotating s).score = s.score := by
  rw [tryRotating]
  split
  · simp
  · split
    · simp
    · split <;> simp

theorem tryRotating_lines (s : TetrisGameState) :
    (tryRotating s).lines = s.lines := by
  rw [tryRotating]
  split
  · simp
  · split
    · simp
    · split <;> simp

theorem tryMovingDown_score (s : TetrisGameState) :
    (tryMovingDown s).2.score = s.score := by
  rw [tryMovingDown]
  split <;> simp

theorem tryMovingDown_lines (s : TetrisGameState) :
    (tryMovingDown s).2.lines = s.lines := by
  rw [tryMovingDown]
  split <;> simp

theorem finishFallingPiece_score (s : TetrisGameState) (newPiece : Nat) :
    (finishFallingPiece s newPiece).score = s.score := by
  simp [finishFallingPiece]

theorem finishFallingPiece_lines (s : TetrisGameState) (newPiece : Nat) :
    (finishFallingPiece s newPiece).lines = s.lines := by
  simp [finishFallingPiece]

theorem removeRowAndShift_getD (board : List Nat) (row : Int) (y x : Nat)
    (hy : y < 20) (hx : x < 10) :
    (removeRowAndShift board row).getD (y * 10 + x) 0 =
      if y = 0 then 32
      else if (y : Int) ≤ row then board.getD ((y - 1) * 10 + x) 0
      else board.getD (y * 10 + x) 0 := by
  have hlen : y * 10 + x < (removeRowAndShift board row).length := by
    simp [removeRowAndShift]
    omega
  rw [List.getD_eq_getElem _ _ hlen]
  simp only [removeRowAndShift, List.getElem_map, List.getElem_range]
  have hdiv : (y * 10 + x) / 10 = y := by omega
  rw [hdiv]
  by_cases hy0 : y = 0
  · simp [hy0]
  · have hsub : y * 10 + x - 10 = (y - 1) * 10 + x := by omega
    simp [hy0, hsub]

theorem lockCells_mem (s : TetrisGameState) (t : Int × Int × Nat) :
    t ∈ lockCells s ↔
      ∃ py < 4, ∃ px < 4, ¬(pieceCell s.current_piece (py * 4 + px) = ' ') ∧
        t = (s.piece_y - py, s.piece_x + px,
             (pieceCell s.current_piece (py * 4 + px)).toNat) := by
  simp only [lockCells, List.mem_flatMap, List.mem_filterMap, List.mem_range]
  constructor
  · rintro ⟨py, hpy, px, hpx, h⟩
    by_cases hc : pieceCell s.current_piece (py * 4 + px) = ' '
    · simp [hc] at h
    · simp only [hc, if_false, Option.some.injEq] at h
      exact ⟨py, hpy, px, hpx, hc, h.symm⟩
  · rintro ⟨py, hpy, px, hpx, hc, rfl⟩
    exact ⟨py, hpy, px, hpx, by simp [hc]⟩

/-- Every catalog piece has a non-space cell in mask row 0 (its bottom
row). -/
theorem catalog_bottom_row_nonempty :
    ∀ p, p < 19 → ∃ px, px < 4 ∧ ¬(pieceCell p px = ' ') := by decide

/-- Ranges guaranteed by a passing sanity check. -/
theorem sanityCheckState_range (s : TetrisGameState)
    (h : sanityCheckState s = true) :
    0 ≤ s.piece_x ∧ s.piece_x < 10 ∧ -1 ≤ s.piece_y ∧ s.piece_y < 20 ∧
      s.current_piece < 20 ∧ s.next_piece < 20 := by
  rw [sanityCheckState] at h
  simp only [BLOCKS_WIDE, BLOCKS_TALL, PIECE_START_Y] at h
  split_ifs at h with h1 h2 h3 h4
  omega

/-! ### Claims -/

/-- C1: the spec says the validator rejects any `current_piece` or
`next_piece` outside the catalog range [0, 19).  The code computes the
limit as `sizeof(tetris_pieces)/sizeof(const char*)`, which counts the
terminating NULL slot, so the limit is 20 and the invalid index 19 — whose
catalog entry is a NULL pointer that later dereferences would crash on —
is accepted: `SanityCheckState` returns 1 on an otherwise fully valid
state with `current_piece = 19`. -/
theorem C1_sanityCheck_accepts_null_slot_id :
    nullPieceState.current_piece = 19 ∧ ¬(nullPieceState.current_piece < 19) ∧
      sanityCheckState nullPieceState = true := by
  refine ⟨rfl, by decide, by decide⟩

/-- C2 (counterexample): the claim says an in-bounds cell is reported
available iff it stores the empty sentinel (space or 0), every printable
non-space marker counting as occupied.  Cell (0,0) of `tildeBoard` stores
126 — a tilde, printable and non-space — yet `SpaceAvailable` reports it
available, because the code's test is `c <= ' ' || c >= '~'`. -/
theorem C2_tilde_reported_available :
    spaceAvailable tildeBoard 0 0 = true ∧ tildeBoard.getD 0 0 = 126 ∧
      ¬(tildeBoard.getD 0 0 = 32 ∨ tildeBoard.getD 0 0 = 0) := by
  refine ⟨by decide, rfl, by decide⟩

/-- C2 (amended): `SpaceAvailable` reports coordinates with `x` out of
[0,10) or `y ≥ 20` unavailable, coordinates with `y < 0` and `x` in range
available, and an in-bounds cell available iff its byte, read as a signed
char, is at most the space character (32) or at least the tilde (126) —
so control bytes, the tilde, DEL and bytes ≥ 128 count as empty during
normal play too, and only printable characters strictly between space and
tilde count as occupied. -/
theorem C2_spaceAvailable_characterization (board : List Nat) (x y : Int) :
    ((x < 0 ∨ 10 ≤ x ∨ 20 ≤ y) → spaceAvailable board x y = false) ∧
    ((0 ≤ x ∧ x < 10 ∧ y < 0) → spaceAvailable board x y = true) ∧
    ((0 ≤ x ∧ x < 10 ∧ 0 ≤ y ∧ y < 20) →
      (spaceAvailable board x y = true ↔
        (signedChar (board.getD (y.toNat * 10 + x.toNat) 0) ≤ 32 ∨
          126 ≤ signedChar (board.getD (y.toNat * 10 + x.toNat) 0)))) := by
  refine ⟨?_, ?_, ?_⟩
  · intro h
    rw [← Bool.not_eq_true, spaceAvailable_eq_true_iff]
    rintro ⟨h1, h2, h3 | ⟨h4, -⟩⟩ <;> omega
  · rintro ⟨h1, h2, h3⟩
    rw [spaceAvailable_eq_true_iff]
    exact ⟨h1, h2, Or.inl h3⟩
  · rintro ⟨h1, h2, h3, h4⟩
    rw [spaceAvailable_eq_true_iff]
    constructor
    · rintro ⟨-, -, h5 | ⟨-, h6⟩⟩
      · omega
      · exact h6
    · intro h5
      exact ⟨h1, h2, Or.inr ⟨h4, h5⟩⟩

/-- C2 (witness): the characterization applied to the tilde cell. -/
theorem C2_characterization_witness : spaceAvailable tildeBoard 0 0 = true :=
  ((C2_spaceAvailable_characterization tildeBoard 0 0).2.2 (by decide)).mpr
    (by decide)

/-- C3: for a valid piece id, `PieceFits` holds iff every filled mask cell
(mask row 0 being the piece's bottom edge) maps to an available board
coordinate `(originX + mx, originY - my)` under the cell-availability
check; empty mask cells impose no constraint. -/
theorem C3_pieceFits_iff_filled_cells_available (s : TetrisGameState)
    (piece : Nat) (x y : Int) (_hp : piece < 19) :
    pieceFits s piece x y = true ↔
      ∀ my < 4, ∀ mx < 4, ¬(pieceCell piece (my * 4 + mx) = ' ') →
        spaceAvailable s.board (x + mx) (y - my) = true := by
  exact pieceFits_eq_true_iff s piece x y

/-- C3 (witness): the characterization applied to piece 0 on an empty
board, concluding that the piece fits there. -/
theorem C3_witness : pieceFits demoState 0 3 0 = true :=
  (C3_pieceFits_iff_filled_cells_available demoState 0 3 0 (by decide)).mpr
    (by decide)

/-- C5: whenever validation rejects a loaded candidate — in particular when
its `piece_x` is negative (such as -1) or ≥ 10, or its `piece_y` is outside
[-1, 20) — `TryQuickload` returns 0 and leaves the live state untouched;
there is no partial application. -/
theorem C5_quickload_rejection_preserves_state (s tmp : TetrisGameState)
    (h : tmp.piece_x < 0 ∨ 10 ≤ tmp.piece_x ∨ tmp.piece_y < -1 ∨
      20 ≤ tmp.piece_y ∨ sanityCheckState tmp = false) :
    sanityCheckState tmp = false ∧ tryQuickload s (some tmp) = (false, s) := by
  have hfail : sanityCheckState tmp = false := by
    by_cases hs : sanityCheckState tmp = true
    · have hr := sanityCheckState_range tmp hs
      rcases h with h | h | h | h | h
      · omega
      · omega
      · omega
      · omega
      · rw [h] at hs
        exact absurd hs (by simp)
    · simpa using hs
  refine ⟨hfail, ?_⟩
  rw [tryQuickload]
  simp [hfail]

/-- C5 (witness): a candidate with `piece_x = -1` (spec scenario 3) is
rejected and the live state is unchanged. -/
theorem C5_witness :
    sanityCheckState negativeXCandidate = false ∧
      tryQuickload demoState (some negativeXCandidate) = (false, demoState) :=
  C5_quickload_rejection_preserves_state demoState negativeXCandidate
    (Or.inl (by decide))

/-- C9: the rotation successor table maps the 19 catalog indices to
catalog indices injectively (a permutation of the catalog), and following
successors from any catalog index returns to it — the orbits are the
rotation cycles of the pieces. -/
theorem C9_piece_rotations_cyclic_permutation :
    (∀ i, i < 19 → nextRotation i < 19) ∧
    (∀ i, i < 19 → ∀ j, j < 19 → nextRotation i = nextRotation j → i = j) ∧
    (∀ i, i < 19 → ∃ k, k < 20 ∧ 0 < k ∧ nextRotation^[k] i = i) := by
  decide

/-- The body of `TryRotating` — an in-place try followed by the two
wall-kick loops — equals a single first-fit search over the offsets
0, 1, 2, 3, -1, -2, -3 in that order. -/
theorem tryRotating_offset_search (s : TetrisGameState) (np : Nat) :
    (if pieceFits s np s.piece_x s.piece_y then
      { s with current_piece := np }
    else
      match ([1, 2, 3] : List Int).find? fun off =>
          pieceFits s np (s.piece_x + off) s.piece_y with
      | some off => { s with current_piece := np, piece_x := s.piece_x + off }
      | none =>
        match ([-1, -2, -3] : List Int).find? fun off =>
            pieceFits s np (s.piece_x + off) s.piece_y with
        | some off => { s with current_piece := np, piece_x := s.piece_x + off }
        | none => s) =
    (match ([0, 1, 2, 3, -1, -2, -3] : List Int).find? (fun off =>
        pieceFits s np (s.piece_x + off) s.piece_y) with
    | some off => { s with current_piece := np, piece_x := s.piece_x + off }
    | none => s) := by
  cases h0 : pieceFits s np s.piece_x s.piece_y with
  | true =>
    have h0' : pieceFits s np (s.piece_x + 0) s.piece_y = true := by
      rw [add_zero]; exact h0
    simp [List.find?, h0, h0']
  | false =>
    have h0' : pieceFits s np (s.piece_x + 0) s.piece_y = false := by
      rw [add_zero]; exact h0
    cases h1 : pieceFits s np (s.piece_x + 1) s.piece_y with
    | true => simp [List.find?, h0, h0', h1]
    | false =>
      cases h2 : pieceFits s np (s.piece_x + 2) s.piece_y with
      | true => simp [List.find?, h0, h0', h1, h2]
      | false =>
        cases h3 : pieceFits s np (s.piece_x + 3) s.piece_y with
        | true => simp [List.find?, h0, h0', h1, h2, h3]
        | false =>
          cases hm1 : pieceFits s np (s.piece_x + -1) s.piece_y with
          | true => simp [List.find?, h0, h0', h1, h2, h3, hm1]
          | false =>
            cases hm2 : pieceFits s np (s.piece_x + -2) s.piece_y with
            | true => simp [List.find?, h0, h0', h1, h2, h3, hm1, hm2]
            | false =>
              cases hm3 : pieceFits s np (s.piece_x + -3) s.piece_y with
              | true => simp [List.find?, h0, h0', h1, h2, h3, hm1, hm2, hm3]
              | false => simp [List.find?, h0, h0', h1, h2, h3, hm1, hm2, hm3]

/-- C4: `TryRotating` tries the next-rotation piece at horizontal offsets in
the exact order 0, +1, +2, +3, -1, -2, -3 and applies the first that fits
(updating `current_piece` and `piece_x`), leaving the state unchanged when
none fits; consequently `piece_y` is unchanged and `piece_x` moves by at
most 3. -/
theorem C4_tryRotating_ordered_offsets (s : TetrisGameState) :
    (tryRotating s =
      match ([0, 1, 2, 3, -1, -2, -3] : List Int).find? (fun off =>
          pieceFits s (piece_rotations.getD s.current_piece 0)
            (s.piece_x + off) s.piece_y) with
      | some off =>
        { s with current_piece := piece_rotations.getD s.current_piece 0,
                 piece_x := s.piece_x + off }
      | none => s) ∧
    (tryRotating s).piece_y = s.piece_y ∧
    |(tryRotating s).piece_x - s.piece_x| ≤ 3 := by
  have heq : tryRotating s =
      match ([0, 1, 2, 3, -1, -2, -3] : List Int).find? (fun off =>
          pieceFits s (piece_rotations.getD s.current_piece 0)
            (s.piece_x + off) s.piece_y) with
      | some off =>
        { s with current_piece := piece_rotations.getD s.current_piece 0,
                 piece_x := s.piece_x + off }
      | none => s := by
    rw [tryRotating]
    exact tryRotating_offset_search s (piece_rotations.getD s.current_piece 0)
  refine ⟨heq, ?_, ?_⟩
  · rw [heq]
    rcases hfind : ([0, 1, 2, 3, -1, -2, -3] : List Int).find? (fun off =>
        pieceFits s (piece_rotations.getD s.current_piece 0)
          (s.piece_x + off) s.piece_y) with _ | off
    · simp
    · simp
  · rw [heq]
    rcases hfind : ([0, 1, 2, 3, -1, -2, -3] : List Int).find? (fun off =>
        pieceFits s (piece_rotations.getD s.current_piece 0)
          (s.piece_x + off) s.piece_y) with _ | off
    · simp
    · have hmem := List.mem_of_find?_eq_some hfind
      simp only [List.mem_cons, List.not_mem_nil, or_false] at hmem
      simp only [add_sub_cancel_left]
      rcases hmem with rfl | rfl | rfl | rfl | rfl | rfl | rfl <;> decide

theorem checkForCompleteLines_score_ge (s : TetrisGameState) (fy : Int) :
    s.score ≤ (checkForCompleteLines s fy).score := by
  rw [checkForCompleteLines_score]
  have := lineBonus_nonneg (completedRows s.board fy).length
  omega

theorem checkForCompleteLines_lines_ge (s : TetrisGameState) (fy : Int) :
    s.lines ≤ (checkForCompleteLines s fy).lines := by
  rw [checkForCompleteLines_lines]
  omega


/-- C7: across any single call of `UpdateGameState` — any input key, any
elapsed time, any timer value, any random piece draw — `score` and `lines`
never decrease; hence they are monotone over any sequence of ticks. -/
theorem C7_update_score_lines_monotone (s : TetrisGameState) (delta : Rat)
    (key : InputKey) (newPiece : Nat) (timer : Rat) :
    s.score ≤ (updateGameState s delta key newPiece timer).2.1.score ∧
    s.lines ≤ (updateGameState s delta key newPiece timer).2.1.lines := by
  have hls : (lateralStep s key).score = s.score := by
    cases key <;> simp [lateralStep, tryMovingLeft_score, tryMovingRight_score,
      tryRotating_score]
  have hll : (lateralStep s key).lines = s.lines := by
    cases key <;> simp [lateralStep, tryMovingLeft_lines, tryMovingRight_lines,
      tryRotating_lines]
  have hland : ∀ (t : TetrisGameState) (n : Nat),
      t.score ≤ (landPhase t n).2.score ∧ t.lines ≤ (landPhase t n).2.lines := by
    intro t n
    rw [landPhase]
    split
    · simp [tryMovingDown_score, tryMovingDown_lines]
    · split
      · simp [tryMovingDown_score, tryMovingDown_lines]
      · refine ⟨le_trans ?_ (checkForCompleteLines_score_ge _ _),
          le_trans ?_ (checkForCompleteLines_lines_ge _ _)⟩ <;>
          simp [finishFallingPiece_score, finishFallingPiece_lines,
            tryMovingDown_score, tryMovingDown_lines]
  rw [updateGameState]
  split
  · have h := hland { lateralStep s key with
      score := (lateralStep s key).score + 1 } newPiece
    simp only [] at h
    refine ⟨le_trans ?_ h.1, le_trans ?_ h.2⟩ <;> simp [hls, hll]
  · simp [hls, hll]

/-- C8: when none of the four examined rows `fy-3 … fy` is complete (each
has some cell the availability check reports available), the line-clear
pass finds no completed rows and returns the state — board, score and
lines — byte-for-byte unchanged. -/
theorem C8_no_complete_rows_unchanged (s : TetrisGameState) (fy : Int)
    (h : ∀ i : Nat, i < 4 → ¬(∀ x : Nat, x < 10 →
        spaceAvailable s.board x (fy - 3 + i) = false)) :
    checkForCompleteLines s fy = s ∧ completedRows s.board fy = [] := by
  have hempty : completedRows s.board fy = [] := by
    rw [completedRows]
    apply List.filter_eq_nil_iff.mpr
    intro y hy
    simp only [List.mem_map, List.mem_range] at hy
    obtain ⟨i, hi, rfl⟩ := hy
    intro hc
    exact h i hi ((isRowComplete_eq_true_iff _ _).mp hc)
  refine ⟨?_, hempty⟩
  rw [checkForCompleteLines]
  simp [hempty]

/-- C8 (witness): an empty board after a (hypothetical) lock at row 19. -/
theorem C8_witness :
    checkForCompleteLines demoState 19 = demoState ∧
      completedRows demoState.board 19 = [] :=
  C8_no_complete_rows_unchanged demoState 19 (by decide)

theorem isRowComplete_eq_decide (b : List Nat) (y : Int) :
    isRowComplete b y =
      decide (∀ x : Nat, x < 10 → spaceAvailable b x y = false) := by
  by_cases h : ∀ x : Nat, x < 10 → spaceAvailable b x y = false
  · rw [(isRowComplete_eq_true_iff b y).mpr h, decide_eq_true h]
  · have h1 : isRowComplete b y = false :=
      Bool.eq_false_iff.mpr fun hc => h ((isRowComplete_eq_true_iff b y).mp hc)
    rw [h1, decide_eq_false h]

theorem completedRows_eq_decideFilter (b : List Nat) (fy : Int) :
    completedRows b fy =
      ((List.range 4).map fun i : Nat => fy - 3 + (i : Int)).filter fun y =>
        decide (∀ x : Nat, x < 10 → spaceAvailable b x y = false) := by
  rw [completedRows]
  apply List.filter_congr
  intro y _
  exact isRowComplete_eq_decide b y

theorem completedRows_length_eq_countP (b : List Nat) (fy : Int) :
    (completedRows b fy).length =
      (List.range 4).countP fun i : Nat =>
        decide (∀ x : Nat, x < 10 →
          spaceAvailable b x (fy - 3 + (i : Int)) = false) := by
  rw [completedRows_eq_decideFilter, ← List.countP_eq_length_filter,
    List.countP_map]
  rfl

/-- C6: the line-clear pass after a lock at row `fy` examines exactly rows
`fy-3 … fy`; with `n` the number of those rows whose 10 columns are all
occupied (per the availability check), it adds `n` to `lines`, adds the
fixed bonus 0/100/400/1600/6400 for n = 0/1/2/3/4 to `score` (`n ≤ 4`),
and the new board is the old board with exactly those rows removed in scan
order, each removal shifting the rows above down one and emptying row 0. -/
theorem C6_checkForCompleteLines_spec (s : TetrisGameState) (fy : Int)
    (_h0 : 0 ≤ fy) (_h20 : fy < 20) :
    ((checkForCompleteLines s fy).lines = s.lines +
      ((List.range 4).countP fun i : Nat =>
        decide (∀ x : Nat, x < 10 →
          spaceAvailable s.board x (fy - 3 + (i : Int)) = false))) ∧
    ((checkForCompleteLines s fy).score = s.score +
      lineBonus ((List.range 4).countP fun i : Nat =>
        decide (∀ x : Nat, x < 10 →
          spaceAvailable s.board x (fy - 3 + (i : Int)) = false))) ∧
    ((List.range 4).countP fun i : Nat =>
        decide (∀ x : Nat, x < 10 →
          spaceAvailable s.board x (fy - 3 + (i : Int)) = false)) ≤ 4 ∧
    (lineBonus 0 = 0 ∧ lineBonus 1 = 100 ∧ lineBonus 2 = 400 ∧
      lineBonus 3 = 1600 ∧ lineBonus 4 = 6400) ∧
    ((checkForCompleteLines s fy).board =
      (((List.range 4).map fun i : Nat => fy - 3 + (i : Int)).filter fun y =>
        decide (∀ x : Nat, x < 10 →
          spaceAvailable s.board x y = false)).foldl
        removeRowAndShift s.board) ∧
    (∀ (b : List Nat) (row : Int) (yy xx : Nat), yy < 20 → xx < 10 →
      (removeRowAndShift b row).getD (yy * 10 + xx) 0 =
        if yy = 0 then 32
        else if (yy : Int) ≤ row then b.getD ((yy - 1) * 10 + xx) 0
        else b.getD (yy * 10 + xx) 0) := by
  refine ⟨?_, ?_, ?_, ⟨rfl, rfl, rfl, rfl, rfl⟩, ?_, ?_⟩
  · rw [checkForCompleteLines_lines, completedRows_length_eq_countP]
  · rw [checkForCompleteLines_score, completedRows_length_eq_countP]
  · rw [← completedRows_length_eq_countP]
    exact completedRows_length_le s.board fy
  · rw [checkForCompleteLines_board, completedRows_eq_decideFilter]
  · intro b row yy xx h1 h2
    exact removeRowAndShift_getD b row yy xx h1 h2

/-- C6 (witness): the lines equation instantiated after a lock at row 19 on
a board whose row 19 is complete. -/
theorem C6_witness :
    (checkForCompleteLines row19FullState 19).lines = row19FullState.lines +
      ((List.range 4).countP fun i : Nat =>
        decide (∀ x : Nat, x < 10 →
          spaceAvailable row19FullState.board x (19 - 3 + (i : Int)) = false)) :=
  (C6_checkForCompleteLines_spec row19FullState 19 (by decide) (by decide)).1

/-- C10: when the current piece (a valid catalog id) fits at its position
and the game is not over (no filled cell above row 0), every store of
`FinishFallingPiece` targets an in-bounds cell of the 10x20 grid (flat
index in [0, 200)); moreover `piece_y` itself is then in [0, 20), the
line-clear scan never classifies a negative row as complete (above-board
cells count as available), and so every row passed to `RemoveRowAndShift`
by the subsequent scan lies in [0, 20). -/
theorem C10_lock_writes_in_bounds (s : TetrisGameState)
    (hp : s.current_piece < 19)
    (hfit : pieceFits s s.current_piece s.piece_x s.piece_y = true)
    (hgo : isGameOver s = false) :
    (∀ t ∈ lockCells s, 0 ≤ t.1 ∧ t.1 < 20 ∧ 0 ≤ t.2.1 ∧ t.2.1 < 10 ∧
      0 ≤ t.1 * 10 + t.2.1 ∧ t.1 * 10 + t.2.1 < 200) ∧
    (0 ≤ s.piece_y ∧ s.piece_y < 20) ∧
    (∀ (b : List Nat) (y : Int), y < 0 → isRowComplete b y = false) ∧
    (∀ (b : List Nat) (y : Int), y ∈ completedRows b s.piece_y →
      0 ≤ y ∧ y < 20) := by
  have hfit' := (pieceFits_eq_true_iff s s.current_piece s.piece_x
    s.piece_y).mp hfit
  have hgo' := (isGameOver_eq_false_iff s).mp hgo
  obtain ⟨px0, hpx0, hcell0⟩ := catalog_bottom_row_nonempty s.current_piece hp
  have hcell0' : ¬(pieceCell s.current_piece (0 * 4 + px0) = ' ') := by
    simpa using hcell0
  have hy0 : 0 ≤ s.piece_y := by
    have := hgo' 0 (by norm_num) px0 hpx0 hcell0'
    omega
  have hy20 : s.piece_y < 20 := by
    have hav := hfit' 0 (by norm_num) px0 hpx0 hcell0'
    rw [spaceAvailable_eq_true_iff] at hav
    obtain ⟨-, -, hv | ⟨hv, -⟩⟩ := hav
    · omega
    · omega
  refine ⟨?_, ⟨hy0, hy20⟩, ?_, ?_⟩
  · intro t ht
    rw [lockCells_mem] at ht
    obtain ⟨py, hpy, px, hpx, hc, rfl⟩ := ht
    have hav := hfit' py hpy px hpx hc
    rw [spaceAvailable_eq_true_iff] at hav
    have hyy := hgo' py hpy px hpx hc
    obtain ⟨hx0, hx10, hv | ⟨hv, -⟩⟩ := hav
    · exact absurd hv (by omega)
    · dsimp only
      refine ⟨by omega, by omega, hx0, hx10, by omega, by omega⟩
  · intro b y hy
    exact isRowComplete_of_neg b y hy
  · intro b y hy
    rw [completedRows_mem] at hy
    obtain ⟨⟨i, hi, rfl⟩, hcomp⟩ := hy
    constructor
    · by_contra hneg
      rw [isRowComplete_of_neg b _ (by omega)] at hcomp
      exact absurd hcomp (by simp)
    · omega

/-- C10 (witness): the in-bounds conclusions at a fitting piece on an empty
board. -/
theorem C10_witness :
    (∀ t ∈ lockCells demoState, 0 ≤ t.1 ∧ t.1 < 20 ∧ 0 ≤ t.2.1 ∧
      t.2.1 < 10 ∧ 0 ≤ t.1 * 10 + t.2.1 ∧ t.1 * 10 + t.2.1 < 200) ∧
    (0 ≤ demoState.piece_y ∧ demoState.piece_y < 20) :=
  ⟨(C10_lock_writes_in_bounds demoState (by decide) (by decide)
      (by decide)).1,
   (C10_lock_writes_in_bounds demoState (by decide) (by decide)
      (by decide)).2.1⟩

/-- C9 (witness): the cyclic-permutation statement instantiated at catalog
index 7 (the first variant of the four-cycle T piece). -/
theorem C9_witness :
    nextRotation 7 < 19 ∧
      ∃ k, k < 20 ∧ 0 < k ∧ nextRotation^[k] 7 = 7 :=
  ⟨C9_piece_rotations_cyclic_permutation.1 7 (by decide),
   C9_piece_rotations_cyclic_permutation.2.2 7 (by decide)⟩
